import Mathlib

/-!
Verification of the BCD backend (medicine-authenticity registry).

The development shallowly embeds the two authoritative source artifacts:

* the Node CLI (addProduct / verifyProduct / addStage / getProductHistory),
  including its keccak256-over-ABI-encoding fingerprint, the PostgreSQL
  products table, and the JavaScript Date ISO round trip; and
* the MedicineAuthenticity Solidity contract (role-gated addProduct and
  addStage, getProductHash, getProductHistory, productExists).

Machine words are modelled as Nat with explicit reduction mod 2^64; byte
strings are lists of Nat (each < 256).
-/

namespace BCD


/-! ## Keccak-256 (as used by ethers.keccak256) -/

/-- 2^64, the lane modulus of Keccak-f[1600]. -/
def U64 : Nat := 18446744073709551616

/-- All-ones 64-bit mask. -/
def MASK64 : Nat := 18446744073709551615

/-- Rotate a 64-bit lane left by n bits. -/
def rotl64 (x n : Nat) : Nat :=
  ((x <<< n) % U64) ||| (x >>> (64 - n))

/-- Bitwise complement of a 64-bit lane. -/
def not64 (x : Nat) : Nat := MASK64 ^^^ x

/-- Keccak round constants, iota step, rounds 0 to 23. -/
def keccakRC : List Nat :=
  [0x1, 0x8082, 0x800000000000808a,
   0x8000000080008000, 0x808b, 0x80000001,
   0x8000000080008081, 0x8000000000008009, 0x8a,
   0x88, 0x80008009, 0x8000000a,
   0x8000808b, 0x800000000000008b, 0x8000000000008089,
   0x8000000000008003, 0x8000000000008002, 0x8000000000000080,
   0x800a, 0x800000008000000a, 0x8000000080008081,
   0x8000000000008080, 0x80000001, 0x8000000080008008]

/-- The 25 lanes of a Keccak-f[1600] state; lane (x, y) is field a(x + 5 y). -/
structure KState where
  a0 : Nat
  a1 : Nat
  a2 : Nat
  a3 : Nat
  a4 : Nat
  a5 : Nat
  a6 : Nat
  a7 : Nat
  a8 : Nat
  a9 : Nat
  a10 : Nat
  a11 : Nat
  a12 : Nat
  a13 : Nat
  a14 : Nat
  a15 : Nat
  a16 : Nat
  a17 : Nat
  a18 : Nat
  a19 : Nat
  a20 : Nat
  a21 : Nat
  a22 : Nat
  a23 : Nat
  a24 : Nat
deriving DecidableEq

/-- One round of Keccak-f[1600]: theta, rho, pi, chi, iota. The rho-pi
source lane and rotation for each destination lane follow the standard
permutation table; chi combines the three lanes of each row; iota mixes
the round constant into lane 0. -/
def keccakRound (A : KState) (rc : Nat) : KState :=
  let c0 := A.a0 ^^^ A.a5 ^^^ A.a10 ^^^ A.a15 ^^^ A.a20
  let c1 := A.a1 ^^^ A.a6 ^^^ A.a11 ^^^ A.a16 ^^^ A.a21
  let c2 := A.a2 ^^^ A.a7 ^^^ A.a12 ^^^ A.a17 ^^^ A.a22
  let c3 := A.a3 ^^^ A.a8 ^^^ A.a13 ^^^ A.a18 ^^^ A.a23
  let c4 := A.a4 ^^^ A.a9 ^^^ A.a14 ^^^ A.a19 ^^^ A.a24
  let d0 := c4 ^^^ rotl64 c1 1
  let d1 := c0 ^^^ rotl64 c2 1
  let d2 := c1 ^^^ rotl64 c3 1
  let d3 := c2 ^^^ rotl64 c4 1
  let d4 := c3 ^^^ rotl64 c0 1
  let b0 := A.a0 ^^^ d0
  let b1 := rotl64 (A.a6 ^^^ d1) 44
  let b2 := rotl64 (A.a12 ^^^ d2) 43
  let b3 := rotl64 (A.a18 ^^^ d3) 21
  let b4 := rotl64 (A.a24 ^^^ d4) 14
  let b5 := rotl64 (A.a3 ^^^ d3) 28
  let b6 := rotl64 (A.a9 ^^^ d4) 20
  let b7 := rotl64 (A.a10 ^^^ d0) 3
  let b8 := rotl64 (A.a16 ^^^ d1) 45
  let b9 := rotl64 (A.a22 ^^^ d2) 61
  let b10 := rotl64 (A.a1 ^^^ d1) 1
  let b11 := rotl64 (A.a7 ^^^ d2) 6
  let b12 := rotl64 (A.a13 ^^^ d3) 25
  let b13 := rotl64 (A.a19 ^^^ d4) 8
  let b14 := rotl64 (A.a20 ^^^ d0) 18
  let b15 := rotl64 (A.a4 ^^^ d4) 27
  let b16 := rotl64 (A.a5 ^^^ d0) 36
  let b17 := rotl64 (A.a11 ^^^ d1) 10
  let b18 := rotl64 (A.a17 ^^^ d2) 15
  let b19 := rotl64 (A.a23 ^^^ d3) 56
  let b20 := rotl64 (A.a2 ^^^ d2) 62
  let b21 := rotl64 (A.a8 ^^^ d3) 55
  let b22 := rotl64 (A.a14 ^^^ d4) 39
  let b23 := rotl64 (A.a15 ^^^ d0) 41
  let b24 := rotl64 (A.a21 ^^^ d1) 2
  { a0 := (b0 ^^^ (not64 b1 &&& b2)) ^^^ rc
    a1 := b1 ^^^ (not64 b2 &&& b3)
    a2 := b2 ^^^ (not64 b3 &&& b4)
    a3 := b3 ^^^ (not64 b4 &&& b0)
    a4 := b4 ^^^ (not64 b0 &&& b1)
    a5 := b5 ^^^ (not64 b6 &&& b7)
    a6 := b6 ^^^ (not64 b7 &&& b8)
    a7 := b7 ^^^ (not64 b8 &&& b9)
    a8 := b8 ^^^ (not64 b9 &&& b5)
    a9 := b9 ^^^ (not64 b5 &&& b6)
    a10 := b10 ^^^ (not64 b11 &&& b12)
    a11 := b11 ^^^ (not64 b12 &&& b13)
    a12 := b12 ^^^ (not64 b13 &&& b14)
    a13 := b13 ^^^ (not64 b14 &&& b10)
    a14 := b14 ^^^ (not64 b10 &&& b11)
    a15 := b15 ^^^ (not64 b16 &&& b17)
    a16 := b16 ^^^ (not64 b17 &&& b18)
    a17 := b17 ^^^ (not64 b18 &&& b19)
    a18 := b18 ^^^ (not64 b19 &&& b15)
    a19 := b19 ^^^ (not64 b15 &&& b16)
    a20 := b20 ^^^ (not64 b21 &&& b22)
    a21 := b21 ^^^ (not64 b22 &&& b23)
    a22 := b22 ^^^ (not64 b23 &&& b24)
    a23 := b23 ^^^ (not64 b24 &&& b20)
    a24 := b24 ^^^ (not64 b20 &&& b21) }

/-- The full Keccak-f[1600] permutation (24 rounds). -/
def keccakF (A : KState) : KState :=
  keccakRC.foldl keccakRound A

/-- Interpret a list of bytes as a little-endian natural number. -/
def leNat (bs : List Nat) : Nat :=
  bs.foldr (fun b acc => b + 256 * acc) 0

/-- Lane i of a 136-byte rate block (bytes 8 i .. 8 i + 7, little-endian). -/
def blockLane (block : List Nat) (i : Nat) : Nat :=
  leNat ((block.drop (8 * i)).take 8)

/-- XOR a 136-byte rate block into the first 17 lanes of the state. -/
def absorbBlock (st : KState) (block : List Nat) : KState :=
  { st with
    a0 := st.a0 ^^^ blockLane block 0
    a1 := st.a1 ^^^ blockLane block 1
    a2 := st.a2 ^^^ blockLane block 2
    a3 := st.a3 ^^^ blockLane block 3
    a4 := st.a4 ^^^ blockLane block 4
    a5 := st.a5 ^^^ blockLane block 5
    a6 := st.a6 ^^^ blockLane block 6
    a7 := st.a7 ^^^ blockLane block 7
    a8 := st.a8 ^^^ blockLane block 8
    a9 := st.a9 ^^^ blockLane block 9
    a10 := st.a10 ^^^ blockLane block 10
    a11 := st.a11 ^^^ blockLane block 11
    a12 := st.a12 ^^^ blockLane block 12
    a13 := st.a13 ^^^ blockLane block 13
    a14 := st.a14 ^^^ blockLane block 14
    a15 := st.a15 ^^^ blockLane block 15
    a16 := st.a16 ^^^ blockLane block 16 }

/-- Keccak multi-rate padding for rate 136 (the 0x01 variant used by
Ethereum keccak256, not the SHA-3 0x06 variant). -/
def keccakPad (len : Nat) : List Nat :=
  let q := 136 - len % 136
  if q = 1 then [0x81] else 0x01 :: List.replicate (q - 2) 0 ++ [0x80]

/-- Split a byte list into 136-byte blocks, driven by fuel to keep the
definition structurally recursive (hence kernel-reducible). -/
def chunksGo : Nat → List Nat → List (List Nat)
  | 0, _ => []
  | _, [] => []
  | fuel + 1, bs => bs.take 136 :: chunksGo fuel (bs.drop 136)

/-- Split a padded message into its 136-byte rate blocks. -/
def chunks136 (bs : List Nat) : List (List Nat) :=
  chunksGo (bs.length + 1) bs

/-- The all-zero initial Keccak state. -/
def kInit : KState :=
  ⟨0, 0, 0, 0, 0, 0, 0, 0, 0, 0, 0, 0, 0, 0, 0, 0, 0, 0, 0, 0, 0, 0, 0, 0, 0⟩

/-- The 8 little-endian bytes of a 64-bit lane. -/
def laneBytes (x : Nat) : List Nat :=
  [x % 256, x >>> 8 % 256, x >>> 16 % 256, x >>> 24 % 256,
   x >>> 32 % 256, x >>> 40 % 256, x >>> 48 % 256, x >>> 56 % 256]

/-- Keccak-256 of a byte list, producing the 32-byte digest. -/
def keccak256 (msg : List Nat) : List Nat :=
  let padded := msg ++ keccakPad msg.length
  let final := (chunks136 padded).foldl (fun s b => keccakF (absorbBlock s b)) kInit
  laneBytes final.a0 ++ laneBytes final.a1 ++ laneBytes final.a2 ++ laneBytes final.a3

/-! ## Hex rendering (ethers.keccak256 returns a lowercase 0x-prefixed string) -/

/-- Lowercase hex digit for a nibble. -/
def hexDigitChar (n : Nat) : Char :=
  if n < 10 then Char.ofNat (48 + n) else Char.ofNat (87 + n)

/-- Two lowercase hex digits for a byte. -/
def byteHex (b : Nat) : List Char :=
  [hexDigitChar (b / 16), hexDigitChar (b % 16)]

/-- Render a byte list as a lowercase 0x-prefixed hex string. -/
def keccak256Hex (msg : List Nat) : String :=
  String.mk ('0' :: 'x' :: ((keccak256 msg).map byteHex).flatten)

/-! ## UTF-8 and Solidity ABI encoding of a (string,string,string,string,string) tuple -/

/-- UTF-8 encoding of a single code point. -/
def utf8Encode (c : Nat) : List Nat :=
  if c < 0x80 then [c]
  else if c < 0x800 then [0xC0 ||| (c >>> 6), 0x80 ||| (c &&& 0x3F)]
  else if c < 0x10000 then
    [0xE0 ||| (c >>> 12), 0x80 ||| ((c >>> 6) &&& 0x3F), 0x80 ||| (c &&& 0x3F)]
  else
    [0xF0 ||| (c >>> 18), 0x80 ||| ((c >>> 12) &&& 0x3F), 0x80 ||| ((c >>> 6) &&& 0x3F),
     0x80 ||| (c &&& 0x3F)]

/-- UTF-8 bytes of a string. -/
def strBytes (s : String) : List Nat :=
  (s.data.map (fun c => utf8Encode c.toNat)).flatten

/-- A 32-byte big-endian ABI word. -/
def abiWord (n : Nat) : List Nat :=
  (List.range 32).map (fun i => (n >>> (8 * (31 - i))) % 256)

/-- Right-pad a byte list with zeros to a multiple of 32 bytes. -/
def padRight32 (bs : List Nat) : List Nat :=
  bs ++ List.replicate ((32 - bs.length % 32) % 32) 0

/-- ABI tail of one dynamic string argument: length word plus padded bytes. -/
def abiTail (bs : List Nat) : List Nat :=
  abiWord bs.length ++ padRight32 bs

/-- Solidity ABI encoding of a 5-tuple of dynamic strings, as produced by
the default AbiCoder for types [string, string, string, string, string]. -/
def abiEncode5 (s1 s2 s3 s4 s5 : List Nat) : List Nat :=
  let t1 := abiTail s1
  let t2 := abiTail s2
  let t3 := abiTail s3
  let t4 := abiTail s4
  let t5 := abiTail s5
  let o1 := 160
  let o2 := o1 + t1.length
  let o3 := o2 + t2.length
  let o4 := o3 + t3.length
  let o5 := o4 + t4.length
  abiWord o1 ++ abiWord o2 ++ abiWord o3 ++ abiWord o4 ++ abiWord o5 ++
    (t1 ++ t2 ++ t3 ++ t4 ++ t5)

/-- The product fingerprint computed by the CLI: keccak256 of the ABI
encoding of (productID, productType, batchNumber, mfgDateStr, expiryDateStr),
rendered as a 0x-prefixed hex string. -/
def jsProductHash (pid ptype batch mfgStr expStr : String) : String :=
  keccak256Hex
    (abiEncode5 (strBytes pid) (strBytes ptype) (strBytes batch) (strBytes mfgStr)
      (strBytes expStr))

/-! ## JavaScript Date, restricted to what the CLI exercises

The CLI only ever creates a Date for "now", shifts its year by two with
setFullYear, serializes with toISOString, and re-parses the stored ISO
string with the Date constructor before calling toISOString again. We
model a Date value by its broken-down UTC components (month 1-based as it
appears in the ISO string), toISOString by fixed-width decimal formatting,
and Date parsing of the fixed 24-character ISO shape produced by
toISOString. A string outside that shape parses to none, which models the
Invalid Date whose toISOString throws a RangeError. -/

structure JsDate where
  year : Nat
  month : Nat
  day : Nat
  hour : Nat
  minute : Nat
  second : Nat
  millis : Nat
deriving DecidableEq

/-- Gregorian leap-year rule, as used by the ECMAScript Date type. -/
def isLeapYear (y : Nat) : Bool :=
  (y % 4 == 0 && y % 100 != 0) || y % 400 == 0

/-- Number of days in a month (month is 1-based). -/
def daysInMonth (y m : Nat) : Nat :=
  if m == 2 then (if isLeapYear y then 29 else 28)
  else if m == 4 || m == 6 || m == 9 || m == 11 then 30
  else 31

/-- Calendar validity of the components, limited to 4-digit years (the
range where toISOString uses the plain YYYY format). -/
def validDate (d : JsDate) : Prop :=
  1 ≤ d.month ∧ d.month ≤ 12 ∧ 1 ≤ d.day ∧ d.day ≤ daysInMonth d.year d.month ∧
    d.hour < 24 ∧ d.minute < 60 ∧ d.second < 60 ∧ d.millis < 1000 ∧ d.year ≤ 9999

instance (d : JsDate) : Decidable (validDate d) := by
  unfold validDate; infer_instance

/-- expiryDate.setFullYear(expiryDate.getFullYear() + 2): the underlying
time value is rebuilt from the new year and the old month and day, so
Feb 29 overflows to Mar 1 when the target year is not a leap year. -/
def setFullYearPlus2 (d : JsDate) : JsDate :=
  if d.month == 2 && d.day == 29 && !isLeapYear (d.year + 2) then
    { d with year := d.year + 2, month := 3, day := 1 }
  else
    { d with year := d.year + 2 }

/-- Decimal digit character. -/
def digitChar (n : Nat) : Char := Char.ofNat (48 + n % 10)

/-- Two-digit zero-padded decimal. -/
def pad2 (n : Nat) : List Char := [digitChar (n / 10), digitChar n]

/-- Three-digit zero-padded decimal. -/
def pad3 (n : Nat) : List Char := [digitChar (n / 100), digitChar (n / 10), digitChar n]

/-- Four-digit zero-padded decimal. -/
def pad4 (n : Nat) : List Char :=
  [digitChar (n / 1000), digitChar (n / 100), digitChar (n / 10), digitChar n]

/-- Character list of Date.prototype.toISOString: YYYY-MM-DDTHH:mm:ss.sssZ. -/
def isoChars (d : JsDate) : List Char :=
  pad4 d.year ++ '-' :: pad2 d.month ++ '-' :: pad2 d.day ++ 'T' :: pad2 d.hour ++
    ':' :: pad2 d.minute ++ ':' :: pad2 d.second ++ '.' :: pad3 d.millis ++ ['Z']

/-- Date.prototype.toISOString. -/
def toISOString (d : JsDate) : String := String.mk (isoChars d)

/-- Numeric value of a decimal digit character. -/
def digitVal (c : Char) : Nat := c.toNat - 48

/-- Whether a character is a decimal digit. -/
def isDigitCh (c : Char) : Prop := 48 ≤ c.toNat ∧ c.toNat ≤ 57

instance (c : Char) : Decidable (isDigitCh c) := by
  unfold isDigitCh; infer_instance

/-- Parse of the 24-character UTC ISO shape YYYY-MM-DDTHH:mm:ss.sssZ, as
the ECMAScript Date constructor interprets the strings produced by
toISOString; anything else is an Invalid Date, modelled as none. -/
def parseISOChars (cs : List Char) : Option JsDate :=
  match cs with
  | [y1, y2, y3, y4, p1, o1, o2, p2, d1, d2, t1, h1, h2, q1, m1, m2, q2, s1, s2, r1,
     l1, l2, l3, z1] =>
    if isDigitCh y1 ∧ isDigitCh y2 ∧ isDigitCh y3 ∧ isDigitCh y4 ∧ isDigitCh o1 ∧
        isDigitCh o2 ∧ isDigitCh d1 ∧ isDigitCh d2 ∧ isDigitCh h1 ∧ isDigitCh h2 ∧
        isDigitCh m1 ∧ isDigitCh m2 ∧ isDigitCh s1 ∧ isDigitCh s2 ∧ isDigitCh l1 ∧
        isDigitCh l2 ∧ isDigitCh l3 ∧ p1 = '-' ∧ p2 = '-' ∧ t1 = 'T' ∧ q1 = ':' ∧
        q2 = ':' ∧ r1 = '.' ∧ z1 = 'Z' then
      let y := 1000 * digitVal y1 + 100 * digitVal y2 + 10 * digitVal y3 + digitVal y4
      let mo := 10 * digitVal o1 + digitVal o2
      let dd := 10 * digitVal d1 + digitVal d2
      let hh := 10 * digitVal h1 + digitVal h2
      let mi := 10 * digitVal m1 + digitVal m2
      let ss := 10 * digitVal s1 + digitVal s2
      let ms := 100 * digitVal l1 + 10 * digitVal l2 + digitVal l3
      if 1 ≤ mo ∧ mo ≤ 12 ∧ 1 ≤ dd ∧ dd ≤ 31 ∧ hh ≤ 23 ∧ mi ≤ 59 ∧ ss ≤ 59 then
        some ⟨y, mo, dd, hh, mi, ss, ms⟩
      else none
    else none
  | _ => none

/-- new Date(s) for a stored timestamp string s. -/
def parseISO (s : String) : Option JsDate := parseISOChars s.data

/-! ## The MedicineAuthenticity contract

State machine of contracts/MedicineAuthenticity.sol. A reverting call is
an Except.error carrying the require message; the caller keeps the old
state (EVM revert semantics). The products mapping is an association
list: a key is present exactly when the exists flag of the stored Product
struct is set, since addProduct is the only writer and always sets it. -/

/-- One entry of a Product struct stages array. -/
structure Stage where
  stageName : String
  authenticator : String
  timestamp : Nat
deriving DecidableEq

/-- The per-product data of the products mapping (exists flag modelled by
presence in the association list). -/
structure ChainProduct where
  productID : String
  productHash : String
  stages : List Stage
deriving DecidableEq

/-- Contract storage: DEFAULT_ADMIN_ROLE holders, ADMIN_ROLE holders, and
the products mapping. -/
structure ChainState where
  defaultAdmins : List String
  admins : List String
  products : List (String × ChainProduct)
deriving DecidableEq

/-- Membership test for a role member list. -/
def memStr : List String → String → Bool
  | [], _ => false
  | a :: rest, x => if a = x then true else memStr rest x

/-- Lookup in the products mapping. -/
def getProduct? : List (String × ChainProduct) → String → Option ChainProduct
  | [], _ => none
  | (k, v) :: rest, pid => if k = pid then some v else getProduct? rest pid

/-- Write through the products mapping (insert or overwrite). -/
def setProduct (ps : List (String × ChainProduct)) (pid : String) (prod : ChainProduct) :
    List (String × ChainProduct) :=
  match ps with
  | [] => [(pid, prod)]
  | (k, v) :: rest =>
    if k = pid then (k, prod) :: rest else (k, v) :: setProduct rest pid prod

/-- Revert message of the onlyRole(ADMIN_ROLE) modifier. -/
def adminMissingMsg (acct : String) : String :=
  "AccessControl: account " ++ acct ++ " is missing role ADMIN_ROLE"

/-- addProduct(_productID, _productHash): onlyRole(ADMIN_ROLE), then the
three require checks, then the storage writes. -/
def contractAddProduct (s : ChainState) (sender pid phash : String) :
    Except String ChainState :=
  if memStr s.admins sender then
    if pid.data = [] then .error "Product ID cannot be empty"
    else if phash.data = [] then .error "Product hash cannot be empty"
    else if (getProduct? s.products pid).isSome then .error "Product already exists"
    else .ok { s with products := setProduct s.products pid ⟨pid, phash, []⟩ }
  else .error (adminMissingMsg sender)

/-- products[_productID].stages.push(...): append stage events to a
Product struct. -/
def appendStages (prod : ChainProduct) (sts : List Stage) : ChainProduct :=
  { prod with stages := prod.stages ++ sts }

/-- addStage(_productID, _stageName): onlyRole(ADMIN_ROLE), the two
require checks, then a push onto the stages array with block.timestamp
(passed in as time) and msg.sender as authenticator. -/
def contractAddStage (s : ChainState) (sender pid stageName : String) (time : Nat) :
    Except String ChainState :=
  if memStr s.admins sender then
    if stageName.data = [] then .error "Stage name cannot be empty"
    else
      match getProduct? s.products pid with
      | none => .error "Product does not exist"
      | some prod =>
        .ok { s with
          products := setProduct s.products pid
            (appendStages prod [⟨stageName, sender, time⟩]) }
  else .error (adminMissingMsg sender)

/-- getProductHash(_productID): view, requires existence. -/
def getProductHashC (s : ChainState) (pid : String) : Except String String :=
  match getProduct? s.products pid with
  | none => .error "Product does not exist"
  | some prod => .ok prod.productHash

/-- getProductHistory(_productID): view, requires existence. -/
def getProductHistoryC (s : ChainState) (pid : String) : Except String (List Stage) :=
  match getProduct? s.products pid with
  | none => .error "Product does not exist"
  | some prod => .ok prod.stages

/-- productExists(_productID): view with no require; total. -/
def productExistsC (s : ChainState) (pid : String) : Bool :=
  (getProduct? s.products pid).isSome

/-- Constructor state: the deployer holds DEFAULT_ADMIN_ROLE and
ADMIN_ROLE; no products. -/
def initialChain (deployer : String) : ChainState :=
  ⟨[deployer], [deployer], []⟩

/-! ## The Node CLI layer -/

/-- One row of the PostgreSQL products table (all columns TEXT-like, the
timestamps stored as the ISO strings the CLI wrote). -/
structure DbRow where
  product_id : String
  product_type : String
  batch_number : String
  manufacturing_date : String
  expiry_date : String
  product_hash : String
deriving DecidableEq

/-- The products table. -/
abbrev DbState := List DbRow

/-- SELECT * FROM products WHERE product_id = $1 (first matching row). -/
def dbFind : DbState → String → Option DbRow
  | [], _ => none
  | r :: rest, pid => if r.product_id = pid then some r else dbFind rest pid

/-- INSERT INTO products ...: fails on a primary-key conflict, otherwise
appends the row. -/
def dbInsertRow (db : DbState) (row : DbRow) : Except String DbState :=
  if (dbFind db row.product_id).isSome then
    .error "duplicate key value violates unique constraint"
  else .ok (db ++ [row])

/-- Whether the needle occurs as a contiguous run at the front of the hay. -/
def hasPrefixL : List Char → List Char → Bool
  | [], _ => true
  | _ :: _, [] => false
  | a :: as, b :: bs => a == b && hasPrefixL as bs

/-- Whether the needle occurs anywhere in the hay
(String.prototype.includes). -/
def containsSubL (needle : List Char) : List Char → Bool
  | [] => hasPrefixL needle []
  | c :: rest => hasPrefixL needle (c :: rest) || containsSubL needle rest

/-- hay.includes(needle). -/
def containsSub (hay needle : String) : Bool :=
  containsSubL needle.data hay.data

/-- The error the CLI throws when its pre-flight existence check fires. -/
def existsMsg (pid : String) : String :=
  "Product " ++ pid ++ " already exists on blockchain"

/-- Observable effects attempted by one addProduct call, in order. -/
inductive RAction
  | ledgerWrite
  | storeInsert
deriving DecidableEq

deriving instance DecidableEq for Except

/-- What an addProduct call returns and leaves behind. -/
structure RegisterOutcome where
  result : Except String (String × String)
  chain : ChainState
  db : DbState
  actions : List RAction
deriving DecidableEq

/-- The two ISO strings the CLI builds at registration time. -/
def regMfgStr (now : JsDate) : String := toISOString now

/-- expiryDate = manufacturingDate with the year advanced by two. -/
def regExpStr (now : JsDate) : String := toISOString (setFullYearPlus2 now)

/-- The fingerprint addProduct computes before writing anywhere. -/
def regHash (now : JsDate) (pid ptype batch : String) : String :=
  jsProductHash pid ptype batch (regMfgStr now) (regExpStr now)

/-- cli.js addProduct(productID, productType, batchNumber).

now stands for new Date(); storeFault injects an environmental failure of
the INSERT (none means the database is reachable). The pre-flight
existence check throws an error whose message contains the word Product,
so its own catch clause swallows it (it rethrows only when the message
does not include "Product") and execution falls through to the on-chain
addProduct transaction; the model keeps that dead branch verbatim. The
outer catch only logs and rethrows, so it is the identity on errors. -/
def addProductJS (chain : ChainState) (db : DbState) (sender : String) (now : JsDate)
    (storeFault : Option String) (pid ptype batch : String) : RegisterOutcome :=
  if pid.data = [] ∨ ptype.data = [] ∨ batch.data = [] then
    ⟨.error "Product ID, Type, and batch number are required", chain, db, []⟩
  else if productExistsC chain pid && !containsSub (existsMsg pid) "Product" then
    ⟨.error (existsMsg pid), chain, db, []⟩
  else
    match contractAddProduct chain sender pid (regHash now pid ptype batch) with
    | .error e => ⟨.error e, chain, db, [.ledgerWrite]⟩
    | .ok chain2 =>
      match storeFault with
      | some msg => ⟨.error msg, chain2, db, [.ledgerWrite, .storeInsert]⟩
      | none =>
        match dbInsertRow db ⟨pid, ptype, batch, regMfgStr now, regExpStr now,
            regHash now pid ptype batch⟩ with
        | .error e => ⟨.error e, chain2, db, [.ledgerWrite, .storeInsert]⟩
        | .ok db2 =>
          ⟨.ok (pid, regHash now pid ptype batch), chain2, db2,
            [.ledgerWrite, .storeInsert]⟩

/-- The object verifyProduct resolves with. -/
structure VerifyResult where
  productID : String
  isAuthentic : Bool
  databaseHash : String
  blockchainHash : String
  metadata : DbRow
deriving DecidableEq

/-- cli.js verifyProduct(productID): read the row, read the on-chain
hash, recompute the fingerprint from the row (its timestamp strings
round-tripped through new Date(...).toISOString()), and compare with
===. A row timestamp that does not parse gives an Invalid Date whose
toISOString throws a RangeError. -/
def verifyProductJS (chain : ChainState) (db : DbState) (pid : String) :
    Except String VerifyResult :=
  if pid.data = [] then .error "Product ID is required"
  else
    match dbFind db pid with
    | none => .error ("Product " ++ pid ++ " not found in database")
    | some row =>
      match getProductHashC chain pid with
      | .error e => .error e
      | .ok blockchainHash =>
        match parseISO row.manufacturing_date, parseISO row.expiry_date with
        | some dm, some de =>
          .ok ⟨pid,
            if jsProductHash row.product_id row.product_type row.batch_number
              (toISOString dm) (toISOString de) = blockchainHash then true else false,
            jsProductHash row.product_id row.product_type row.batch_number
              (toISOString dm) (toISOString de),
            blockchainHash, row⟩
        | _, _ => .error "Invalid time value"

/-! ## Operation traces over the contract -/

/-- Whether an Except result is a success. -/
def exceptIsOk {ε α : Type} : Except ε α → Bool
  | .ok _ => true
  | .error _ => false

/-- The mutating entry points of the contract, with their callers; time
is the block timestamp the ledger assigns to an addStage. -/
inductive COp
  | addP (sender pid phash : String)
  | addS (sender pid stageName : String) (time : Nat)
  | grantAdmin (sender acct : String)

/-- Execute one call with revert semantics: a reverting call leaves the
state unchanged. grantRole(ADMIN_ROLE, acct) requires the caller to hold
DEFAULT_ADMIN_ROLE (the role admin of ADMIN_ROLE) and is a no-op when the
account already holds the role. -/
def stepOp (s : ChainState) : COp → ChainState
  | .addP sender pid phash =>
    match contractAddProduct s sender pid phash with
    | .ok s2 => s2
    | .error _ => s
  | .addS sender pid nm t =>
    match contractAddStage s sender pid nm t with
    | .ok s2 => s2
    | .error _ => s
  | .grantAdmin sender acct =>
    if memStr s.defaultAdmins sender then
      if memStr s.admins acct then s else { s with admins := acct :: s.admins }
    else s

/-- Execute a call sequence from a state. -/
def runOps (s : ChainState) (ops : List COp) : ChainState := ops.foldl stepOp s

/-- Whether one call, applied to state s, successfully registers pid. -/
def opRegisters (s : ChainState) (pid : String) : COp → Bool
  | .addP sender p phash =>
    if p = pid then exceptIsOk (contractAddProduct s sender p phash) else false
  | _ => false

/-- Whether some call of the trace successfully registers pid. -/
def traceRegisters : ChainState → List COp → String → Bool
  | _, [], _ => false
  | s, op :: ops, pid => opRegisters s pid op || traceRegisters (stepOp s op) ops pid

/-! ## Stage-call sequences -/

/-- Apply a sequence of addStage calls (name, block timestamp) for one
product by one sender. -/
def stageCalls (s : ChainState) (sender pid : String) (calls : List (String × Nat)) :
    ChainState :=
  calls.foldl (fun st c => stepOp st (.addS sender pid c.1 c.2)) s

/-- A sample registration instant, 2025-01-15T10:30:00.000Z. -/
def nowSample : JsDate := ⟨2025, 1, 15, 10, 30, 0, 0⟩

/-- The chain state left by the registration of P1 as Aspirin. -/
def chainSample : ChainState :=
  (addProductJS (initialChain "0xD") [] "0xD" nowSample none "P1" "Aspirin" "B001").chain

/-- The P1 row after an out-of-band UPDATE of product_type to Ibuprofen. -/
def tamperedRow : DbRow :=
  ⟨"P1", "Ibuprofen", "B001", regMfgStr nowSample, regExpStr nowSample,
    regHash nowSample "P1" "Aspirin" "B001"⟩

/-- The first registration of P1, on a fresh deployment with an empty table. -/
def firstRegister : RegisterOutcome :=
  addProductJS (initialChain "0xD") [] "0xD" nowSample none "P1" "Aspirin" "B001"

/-- The instant of the duplicate registration attempt. -/
def nowSample2 : JsDate := ⟨2025, 2, 20, 8, 0, 0, 0⟩

/-- A second registration of P1 against the state the first one left. -/
def secondRegister : RegisterOutcome :=
  addProductJS firstRegister.chain firstRegister.db "0xD" nowSample2 none
    "P1" "Aspirin" "B001"

/-! ### Round trip: parsing a toISOString output recovers the components -/

theorem digitChar_toNat (k : Nat) : (digitChar k).toNat = 48 + k % 10 := by
  have h : k % 10 < 10 := Nat.mod_lt _ (by omega)
  unfold digitChar
  revert h
  generalize k % 10 = m
  intro h
  interval_cases m <;> decide

theorem isDigitCh_digitChar (k : Nat) : isDigitCh (digitChar k) := by
  unfold isDigitCh
  rw [digitChar_toNat]
  omega

theorem digitVal_digitChar (k : Nat) : digitVal (digitChar k) = k % 10 := by
  unfold digitVal
  rw [digitChar_toNat]
  omega

theorem daysInMonth_le_31 (y m : Nat) : daysInMonth y m ≤ 31 := by
  unfold daysInMonth
  split
  · split <;> omega
  · split <;> omega

theorem daysInMonth_feb_le_29 (y : Nat) : daysInMonth y 2 ≤ 29 := by
  have e : daysInMonth y 2 = if isLeapYear y then 29 else 28 := rfl
  rw [e]
  split <;> omega

theorem daysInMonth_ge_28 (y m : Nat) : 28 ≤ daysInMonth y m := by
  unfold daysInMonth
  split
  · split <;> omega
  · split <;> omega

theorem daysInMonth_of_ne_two (y1 y2 m : Nat) (h : m ≠ 2) :
    daysInMonth y1 m = daysInMonth y2 m := by
  unfold daysInMonth
  simp [h]

theorem parseISOChars_isoChars (d : JsDate) (h : validDate d) :
    parseISOChars (isoChars d) = some d := by
  obtain ⟨y, mo, da, hh, mi, ss, ms⟩ := d
  obtain ⟨h1, h2, h3, h4, h5, h6, h7, h8, h9⟩ := h
  dsimp only at h1 h2 h3 h4 h5 h6 h7 h8 h9
  have hd31 : da ≤ 31 := le_trans h4 (daysInMonth_le_31 _ _)
  simp only [isoChars, pad4, pad2, pad3, List.cons_append, List.nil_append]
  simp only [parseISOChars]
  split
  next hc =>
    split
    next hr =>
      simp only [digitVal_digitChar, Option.some.injEq, JsDate.mk.injEq]
      omega
    next hr =>
      exfalso
      apply hr
      simp only [digitVal_digitChar]
      omega
  next hc =>
    exfalso
    apply hc
    refine ⟨isDigitCh_digitChar _, isDigitCh_digitChar _, isDigitCh_digitChar _,
      isDigitCh_digitChar _, isDigitCh_digitChar _, isDigitCh_digitChar _,
      isDigitCh_digitChar _, isDigitCh_digitChar _, isDigitCh_digitChar _,
      isDigitCh_digitChar _, isDigitCh_digitChar _, isDigitCh_digitChar _,
      isDigitCh_digitChar _, isDigitCh_digitChar _, isDigitCh_digitChar _,
      isDigitCh_digitChar _, isDigitCh_digitChar _, ?_, ?_, ?_, ?_, ?_, ?_, ?_⟩ <;>
      trivial

theorem parseISO_toISOString (d : JsDate) (h : validDate d) :
    parseISO (toISOString d) = some d := by
  unfold parseISO toISOString
  exact parseISOChars_isoChars d h

theorem validDate_setFullYearPlus2 (d : JsDate) (h : validDate d) (hy : d.year ≤ 9997) :
    validDate (setFullYearPlus2 d) := by
  obtain ⟨y, mo, da, hh, mi, ss, ms⟩ := d
  obtain ⟨h1, h2, h3, h4, h5, h6, h7, h8, h9⟩ := h
  dsimp only at h1 h2 h3 h4 h5 h6 h7 h8 h9 hy
  unfold setFullYearPlus2
  split
  next hcond =>
    show 1 ≤ 3 ∧ 3 ≤ 12 ∧ 1 ≤ 1 ∧ 1 ≤ daysInMonth (y + 2) 3 ∧ hh < 24 ∧ mi < 60 ∧
      ss < 60 ∧ ms < 1000 ∧ y + 2 ≤ 9999
    refine ⟨by omega, by omega, by omega, ?_, h5, h6, h7, h8, by omega⟩
    have e : daysInMonth (y + 2) 3 = 31 := rfl
    omega
  next hcond =>
    show 1 ≤ mo ∧ mo ≤ 12 ∧ 1 ≤ da ∧ da ≤ daysInMonth (y + 2) mo ∧ hh < 24 ∧ mi < 60 ∧
      ss < 60 ∧ ms < 1000 ∧ y + 2 ≤ 9999
    refine ⟨h1, h2, h3, ?_, h5, h6, h7, h8, by omega⟩
    by_cases hm : mo = 2
    · subst hm
      by_cases hd29 : da = 29
      · subst hd29
        have hleap : isLeapYear (y + 2) = true := by
          by_contra hL
          rw [Bool.not_eq_true] at hL
          exact hcond (by simp [hL])
        have e : daysInMonth (y + 2) 2 = if isLeapYear (y + 2) then 29 else 28 := rfl
        rw [e, hleap]
        simp
      · have hle : da ≤ 28 := by
          have := daysInMonth_feb_le_29 y
          omega
        have := daysInMonth_ge_28 (y + 2) 2
        omega
    · rw [daysInMonth_of_ne_two (y + 2) y _ hm]
      exact h4

/-! ## Mapping and table lemmas -/

theorem getProduct_setProduct_self (ps : List (String × ChainProduct)) (k : String)
    (v : ChainProduct) : getProduct? (setProduct ps k v) k = some v := by
  induction ps with
  | nil => simp [setProduct, getProduct?]
  | cons p rest ih =>
    obtain ⟨k2, v2⟩ := p
    unfold setProduct
    by_cases h : k2 = k
    · subst h
      simp [getProduct?]
    · simp only [if_neg h]
      unfold getProduct?
      simp only [if_neg h]
      exact ih

theorem getProduct_setProduct_other (ps : List (String × ChainProduct)) (k q : String)
    (v : ChainProduct) (h : q ≠ k) :
    getProduct? (setProduct ps k v) q = getProduct? ps q := by
  have hk : k ≠ q := fun hh => h hh.symm
  induction ps with
  | nil => simp [setProduct, getProduct?, hk]
  | cons p rest ih =>
    obtain ⟨k2, v2⟩ := p
    simp only [setProduct]
    by_cases h2 : k2 = k
    · rw [if_pos h2]
      have h2q : k2 ≠ q := by rw [h2]; exact hk
      simp only [getProduct?, if_neg h2q]
    · rw [if_neg h2]
      simp only [getProduct?]
      by_cases h3 : k2 = q
      · rw [if_pos h3, if_pos h3]
      · rw [if_neg h3, if_neg h3]
        exact ih

theorem dbFind_append_none (db : DbState) (r : DbRow) (pid : String)
    (h : dbFind db pid = none) :
    dbFind (db ++ [r]) pid = if r.product_id = pid then some r else none := by
  induction db with
  | nil => simp [dbFind]
  | cons x rest ih =>
    simp only [dbFind] at h
    simp only [List.cons_append, dbFind]
    by_cases hx : x.product_id = pid
    · rw [if_pos hx] at h
      exact absurd h (by simp)
    · rw [if_neg hx] at h ⊢
      exact ih h

/-! ## Contract call inversion lemmas -/

theorem contractAddProduct_ok (s : ChainState) (sender p hsh : String) (s2 : ChainState)
    (hc : contractAddProduct s sender p hsh = .ok s2) :
    s2 = { s with products := setProduct s.products p ⟨p, hsh, []⟩ } ∧
      getProduct? s.products p = none ∧ memStr s.admins sender = true := by
  unfold contractAddProduct at hc
  split at hc
  next hadm =>
    split at hc
    · exact absurd hc (by simp)
    · split at hc
      · exact absurd hc (by simp)
      · split at hc
        · exact absurd hc (by simp)
        next hex =>
          refine ⟨by injection hc with h; exact h.symm, ?_, hadm⟩
          rcases ho : getProduct? s.products p with _ | v
          · rfl
          · exact absurd (by rw [ho]; rfl) hex
  next => exact absurd hc (by simp)

theorem contractAddStage_ok (s : ChainState) (sender p nm : String) (t : Nat)
    (s2 : ChainState) (hc : contractAddStage s sender p nm t = .ok s2) :
    ∃ prod, getProduct? s.products p = some prod ∧
      s2 = { s with
        products := setProduct s.products p (appendStages prod [⟨nm, sender, t⟩]) } := by
  unfold contractAddStage at hc
  split at hc
  next hadm =>
    split at hc
    · exact absurd hc (by simp)
    · split at hc
      next => exact absurd hc (by simp)
      next prod hp =>
        exact ⟨prod, hp, by injection hc with h; exact h.symm⟩
  next => exact absurd hc (by simp)

theorem contractAddStage_ok_of (s : ChainState) (sender p nm : String) (t : Nat)
    (prod : ChainProduct) (hadm : memStr s.admins sender = true)
    (hn : nm.data ≠ []) (hp : getProduct? s.products p = some prod) :
    contractAddStage s sender p nm t = .ok { s with
      products := setProduct s.products p (appendStages prod [⟨nm, sender, t⟩]) } := by
  unfold contractAddStage
  rw [if_pos hadm, if_neg hn, hp]

theorem productExists_stepOp (s : ChainState) (op : COp) (pid : String) :
    productExistsC (stepOp s op) pid = (productExistsC s pid || opRegisters s pid op) := by
  cases op with
  | addP sender p phash =>
    simp only [stepOp, opRegisters]
    rcases hc : contractAddProduct s sender p phash with e | s2
    · simp [exceptIsOk]
    · obtain ⟨hs2, hnone, _⟩ := contractAddProduct_ok s sender p phash s2 hc
      subst hs2
      by_cases hp : p = pid
      · subst hp
        unfold productExistsC
        simp [getProduct_setProduct_self, hnone, exceptIsOk]
      · unfold productExistsC
        show (getProduct? (setProduct s.products p ⟨p, phash, []⟩) pid).isSome = _
        rw [getProduct_setProduct_other s.products p pid _ (fun hh => hp hh.symm)]
        simp [hp]
  | addS sender p nm t =>
    simp only [stepOp, opRegisters]
    rcases hc : contractAddStage s sender p nm t with e | s2
    · simp
    · obtain ⟨prod, hp, hs2⟩ := contractAddStage_ok s sender p nm t s2 hc
      subst hs2
      unfold productExistsC
      show (getProduct? (setProduct s.products p (appendStages prod [⟨nm, sender, t⟩]))
        pid).isSome = _
      by_cases hq : pid = p
      · subst hq
        rw [getProduct_setProduct_self]
        simp [hp]
      · rw [getProduct_setProduct_other s.products p pid _ hq]
        simp
  | grantAdmin sender acct =>
    simp only [stepOp, opRegisters]
    split
    · split
      · simp
      · simp [productExistsC]
    · simp

theorem productExists_runOps (s : ChainState) (ops : List COp) (pid : String) :
    productExistsC (runOps s ops) pid =
      (productExistsC s pid || traceRegisters s ops pid) := by
  induction ops generalizing s with
  | nil => simp [runOps, traceRegisters]
  | cons op ops ih =>
    show productExistsC (runOps (stepOp s op) ops) pid = _
    rw [ih, productExists_stepOp]
    simp only [traceRegisters]
    rw [Bool.or_assoc]

theorem appendStages_append (prod : ChainProduct) (a : Stage) (l : List Stage) :
    appendStages (appendStages prod [a]) l = appendStages prod (a :: l) := by
  simp [appendStages]

theorem stageCalls_products (sender pid : String) (calls : List (String × Nat))
    (s : ChainState) (prod : ChainProduct)
    (hadm : memStr s.admins sender = true)
    (hp : getProduct? s.products pid = some prod)
    (hn : ∀ c ∈ calls, (c.1 : String).data ≠ []) :
    getProduct? (stageCalls s sender pid calls).products pid =
      some (appendStages prod (calls.map (fun c => (⟨c.1, sender, c.2⟩ : Stage)))) ∧
    (stageCalls s sender pid calls).admins = s.admins := by
  induction calls generalizing s prod with
  | nil =>
    refine ⟨?_, rfl⟩
    rw [show stageCalls s sender pid [] = s from rfl, hp]
    simp [appendStages]
  | cons c rest ih =>
    have hstep : stepOp s (.addS sender pid c.1 c.2) = { s with
        products := setProduct s.products pid (appendStages prod [⟨c.1, sender, c.2⟩]) } := by
      simp only [stepOp]
      rw [contractAddStage_ok_of s sender pid c.1 c.2 prod hadm (hn c (by simp)) hp]
    have hrun : stageCalls s sender pid (c :: rest) =
        stageCalls (stepOp s (.addS sender pid c.1 c.2)) sender pid rest := rfl
    rw [hrun, hstep]
    obtain ⟨hget, hadm2⟩ := ih
      ({ s with products := setProduct s.products pid (appendStages prod [⟨c.1, sender, c.2⟩]) })
      (appendStages prod [⟨c.1, sender, c.2⟩])
      hadm (getProduct_setProduct_self _ _ _) (fun x hx => hn x (by simp [hx]))
    refine ⟨?_, hadm2⟩
    rw [hget, appendStages_append]
    simp

/-! ## CLI reduction lemmas -/

theorem keccak256Hex_ne_nil (m : List Nat) : (keccak256Hex m).data ≠ [] := by
  simp [keccak256Hex]

theorem jsProductHash_ne_nil (a b c d e : String) : (jsProductHash a b c d e).data ≠ [] :=
  keccak256Hex_ne_nil _

/-- The message of the pre-flight AlreadyExists error always contains the
word Product, whatever the productID; this is what makes the catch clause
swallow it. -/
theorem containsSub_existsMsg (pid : String) :
    containsSub (existsMsg pid) "Product" = true := by
  unfold containsSub existsMsg
  rw [String.data_append, String.data_append]
  simp [containsSubL, hasPrefixL]

theorem contractAddProduct_succeeds (s : ChainState) (sender pid phash : String)
    (hadm : memStr s.admins sender = true) (hpid : pid.data ≠ [])
    (hhash : phash.data ≠ []) (hfresh : productExistsC s pid = false) :
    contractAddProduct s sender pid phash =
      .ok { s with products := setProduct s.products pid ⟨pid, phash, []⟩ } := by
  unfold contractAddProduct
  rw [if_pos hadm, if_neg hpid, if_neg hhash,
    if_neg (show ¬(getProduct? s.products pid).isSome = true by
      rw [show (getProduct? s.products pid).isSome = false from hfresh]; simp)]

/-- After input validation, addProduct always reaches the ledger write: the
pre-flight existence check cannot abort the call, because the error it
throws is swallowed by its own catch clause. -/
theorem addProductJS_eq (chain : ChainState) (db : DbState) (sender : String)
    (now : JsDate) (fault : Option String) (pid ptype batch : String)
    (hpid : pid.data ≠ []) (hty : ptype.data ≠ []) (hba : batch.data ≠ []) :
    addProductJS chain db sender now fault pid ptype batch =
      match contractAddProduct chain sender pid (regHash now pid ptype batch) with
      | .error e => ⟨.error e, chain, db, [.ledgerWrite]⟩
      | .ok chain2 =>
        match fault with
        | some msg => ⟨.error msg, chain2, db, [.ledgerWrite, .storeInsert]⟩
        | none =>
          match dbInsertRow db ⟨pid, ptype, batch, regMfgStr now, regExpStr now,
              regHash now pid ptype batch⟩ with
          | .error e => ⟨.error e, chain2, db, [.ledgerWrite, .storeInsert]⟩
          | .ok db2 =>
            ⟨.ok (pid, regHash now pid ptype batch), chain2, db2,
              [.ledgerWrite, .storeInsert]⟩ := by
  unfold addProductJS
  rw [if_neg (by simp [hpid, hty, hba]),
    if_neg (by rw [containsSub_existsMsg]; simp)]

/-- INSERT succeeds when the key is fresh. -/
theorem dbInsertRow_ok (db : DbState) (row : DbRow)
    (h : dbFind db row.product_id = none) :
    dbInsertRow db row = .ok (db ++ [row]) := by
  unfold dbInsertRow
  rw [h]
  rfl

/-- A found product determines getProductHash. -/
theorem getProductHashC_of (s : ChainState) (pid : String) (prod : ChainProduct)
    (h : getProduct? s.products pid = some prod) :
    getProductHashC s pid = .ok prod.productHash := by
  unfold getProductHashC
  rw [h]

/-! ## Claims -/

/-- Claim C7: a caller without the administrative capability cannot mutate the
ledger. Both addProduct and addStage revert with the AccessControl message -
the onlyRole modifier runs before the function body, so the check precedes any
state mutation - and under revert semantics the whole state (products mapping,
stage arrays, role grants) is exactly the one before the call. -/
theorem claim7_unauthorized_no_state_change (s : ChainState)
    (sender pid phash nm : String) (t : Nat)
    (hadm : memStr s.admins sender = false) :
    contractAddProduct s sender pid phash = .error (adminMissingMsg sender) ∧
    contractAddStage s sender pid nm t = .error (adminMissingMsg sender) ∧
    stepOp s (.addP sender pid phash) = s ∧
    stepOp s (.addS sender pid nm t) = s := by
  have h1 : contractAddProduct s sender pid phash = .error (adminMissingMsg sender) := by
    unfold contractAddProduct
    rw [hadm]
    simp
  have h2 : contractAddStage s sender pid nm t = .error (adminMissingMsg sender) := by
    unfold contractAddStage
    rw [hadm]
    simp
  exact ⟨h1, h2, by simp only [stepOp, h1], by simp only [stepOp, h2]⟩

/-- Witness for C7 at a concrete state: the deployer is the only admin and an
outside account is rejected without any state change. -/
theorem claim7_witness :
    contractAddProduct (initialChain "0xOwner") "0xEve" "P1" "0xabc" =
      .error (adminMissingMsg "0xEve") ∧
    contractAddStage (initialChain "0xOwner") "0xEve" "P1" "Packaged" 100 =
      .error (adminMissingMsg "0xEve") ∧
    stepOp (initialChain "0xOwner") (.addP "0xEve" "P1" "0xabc") = initialChain "0xOwner" ∧
    stepOp (initialChain "0xOwner") (.addS "0xEve" "P1" "Packaged" 100) =
      initialChain "0xOwner" :=
  claim7_unauthorized_no_state_change (initialChain "0xOwner") "0xEve" "P1" "0xabc"
    "Packaged" 100 (by decide)

/-- Claim C9: productExists is total - it returns a Bool for every productID
string, the empty string included, and every reachable state, with no require
to revert on - and it returns true exactly when some call of the trace since
deployment successfully registered that productID. -/
theorem claim9_exists_total (deployer : String) (ops : List COp) (pid : String) :
    productExistsC (runOps (initialChain deployer) ops) pid =
      traceRegisters (initialChain deployer) ops pid := by
  rw [productExists_runOps]
  simp [productExistsC, initialChain, getProduct?]

/-- Claim C8: for a registered product, getProductHistory returns the stage
events in insertion order - the order of the addStage calls, each event
carrying the sender and the ledger-assigned block timestamp - starting from
the empty sequence when no stage has been appended; when the block timestamps
of the calls are non-decreasing, so are the timestamps of the returned
history. -/
theorem claim8_history_insertion_order (s : ChainState) (sender pid : String)
    (prod : ChainProduct) (calls : List (String × Nat))
    (hadm : memStr s.admins sender = true)
    (hp : getProduct? s.products pid = some prod)
    (hempty : prod.stages = [])
    (hn : ∀ c ∈ calls, (c.1 : String).data ≠ []) :
    getProductHistoryC s pid = .ok [] ∧
    getProductHistoryC (stageCalls s sender pid calls) pid =
      .ok (calls.map (fun c => (⟨c.1, sender, c.2⟩ : Stage))) ∧
    ((calls.map Prod.snd).Chain' (· ≤ ·) →
      ((calls.map (fun c => (⟨c.1, sender, c.2⟩ : Stage))).map
        Stage.timestamp).Chain' (· ≤ ·)) := by
  obtain ⟨hget, _⟩ := stageCalls_products sender pid calls s prod hadm hp hn
  refine ⟨?_, ?_, ?_⟩
  · unfold getProductHistoryC
    rw [hp]
    show Except.ok prod.stages = Except.ok ([] : List Stage)
    rw [hempty]
  · unfold getProductHistoryC
    rw [hget]
    show Except.ok (prod.stages ++ calls.map (fun c => (⟨c.1, sender, c.2⟩ : Stage))) =
      Except.ok (calls.map (fun c => (⟨c.1, sender, c.2⟩ : Stage)))
    rw [hempty, List.nil_append]
  · intro hchain
    have e : (calls.map (fun c => (⟨c.1, sender, c.2⟩ : Stage))).map Stage.timestamp =
        calls.map Prod.snd := by
      induction calls with
      | nil => rfl
      | cons c rest ih => simp_all
    rw [e]
    exact hchain

/-- Witness for C8: Packaged then Shipped on a registered product comes back
as the two stage events in that order with non-decreasing timestamps. -/
theorem claim8_witness :
    getProductHistoryC (⟨["0xD"], ["0xD"], [("P1", ⟨"P1", "0xabc", []⟩)]⟩ : ChainState)
      "P1" = .ok [] ∧
    getProductHistoryC (stageCalls (⟨["0xD"], ["0xD"], [("P1", ⟨"P1", "0xabc", []⟩)]⟩ :
        ChainState) "0xD" "P1" [("Packaged", 10), ("Shipped", 20)]) "P1" =
      .ok [⟨"Packaged", "0xD", 10⟩, ⟨"Shipped", "0xD", 20⟩] ∧
    (([("Packaged", 10), ("Shipped", 20)].map
      (fun c => (⟨c.1, "0xD", c.2⟩ : Stage))).map Stage.timestamp).Chain' (· ≤ ·) :=
  ⟨(claim8_history_insertion_order (⟨["0xD"], ["0xD"], [("P1", ⟨"P1", "0xabc", []⟩)]⟩ :
        ChainState) "0xD" "P1" ⟨"P1", "0xabc", []⟩ [("Packaged", 10), ("Shipped", 20)]
      (by decide) (by decide) (by decide) (by decide)).1,
   (claim8_history_insertion_order (⟨["0xD"], ["0xD"], [("P1", ⟨"P1", "0xabc", []⟩)]⟩ :
        ChainState) "0xD" "P1" ⟨"P1", "0xabc", []⟩ [("Packaged", 10), ("Shipped", 20)]
      (by decide) (by decide) (by decide) (by decide)).2.1,
   (claim8_history_insertion_order (⟨["0xD"], ["0xD"], [("P1", ⟨"P1", "0xabc", []⟩)]⟩ :
        ChainState) "0xD" "P1" ⟨"P1", "0xabc", []⟩ [("Packaged", 10), ("Shipped", 20)]
      (by decide) (by decide) (by decide) (by decide)).2.2
     (List.Chain.cons (by omega) List.Chain.nil)⟩

/-- When the row is found, verifyProduct reduces to the hash comparison over
that row. -/
theorem verifyProductJS_row (chain : ChainState) (db : DbState) (pid : String)
    (row : DbRow) (hp : pid.data ≠ []) (hrow : dbFind db pid = some row) :
    verifyProductJS chain db pid =
      match getProductHashC chain pid with
      | .error e => .error e
      | .ok blockchainHash =>
        match parseISO row.manufacturing_date, parseISO row.expiry_date with
        | some dm, some de =>
          .ok ⟨pid,
            if jsProductHash row.product_id row.product_type row.batch_number
              (toISOString dm) (toISOString de) = blockchainHash then true else false,
            jsProductHash row.product_id row.product_type row.batch_number
              (toISOString dm) (toISOString de),
            blockchainHash, row⟩
        | _, _ => .error "Invalid time value" := by
  unfold verifyProductJS
  rw [if_neg hp, hrow]

/-- Claim C10: the isAuthentic verdict of verifyProduct does not depend on the
stored product_hash column. The recomputation uses only the five descriptive
columns, so two database states whose rows for the product agree everywhere
except product_hash produce the same verdict (and the same digests and
errors); tampering with product_hash alone goes undetected. -/
theorem claim10_verify_ignores_stored_hash (chain : ChainState) (db1 db2 : DbState)
    (pid : String) (r1 r2 : DbRow)
    (h1 : dbFind db1 pid = some r1) (h2 : dbFind db2 pid = some r2)
    (hid : r1.product_id = r2.product_id) (hty : r1.product_type = r2.product_type)
    (hba : r1.batch_number = r2.batch_number)
    (hmf : r1.manufacturing_date = r2.manufacturing_date)
    (hex : r1.expiry_date = r2.expiry_date) :
    (verifyProductJS chain db1 pid).map VerifyResult.isAuthentic =
      (verifyProductJS chain db2 pid).map VerifyResult.isAuthentic := by
  by_cases hp : pid.data = []
  · unfold verifyProductJS
    rw [if_pos hp, if_pos hp]
  · rw [verifyProductJS_row chain db1 pid r1 hp h1,
      verifyProductJS_row chain db2 pid r2 hp h2, hmf, hex, hid, hty, hba]
    cases getProductHashC chain pid
    · rfl
    · cases parseISO r2.manufacturing_date <;> cases parseISO r2.expiry_date <;> rfl

/-- Witness for C10: two rows differing only in the stored product_hash give
the same isAuthentic verdict. -/
theorem claim10_witness :
    (verifyProductJS (initialChain "0xD")
        [⟨"P1", "Aspirin", "B001", "2025-01-15T10:30:00.000Z",
          "2027-01-15T10:30:00.000Z", "0xAAA"⟩] "P1").map VerifyResult.isAuthentic =
      (verifyProductJS (initialChain "0xD")
        [⟨"P1", "Aspirin", "B001", "2025-01-15T10:30:00.000Z",
          "2027-01-15T10:30:00.000Z", "0xBBB"⟩] "P1").map VerifyResult.isAuthentic :=
  claim10_verify_ignores_stored_hash (initialChain "0xD")
    [⟨"P1", "Aspirin", "B001", "2025-01-15T10:30:00.000Z",
      "2027-01-15T10:30:00.000Z", "0xAAA"⟩]
    [⟨"P1", "Aspirin", "B001", "2025-01-15T10:30:00.000Z",
      "2027-01-15T10:30:00.000Z", "0xBBB"⟩]
    "P1"
    ⟨"P1", "Aspirin", "B001", "2025-01-15T10:30:00.000Z",
      "2027-01-15T10:30:00.000Z", "0xAAA"⟩
    ⟨"P1", "Aspirin", "B001", "2025-01-15T10:30:00.000Z",
      "2027-01-15T10:30:00.000Z", "0xBBB"⟩
    (by decide) (by decide) rfl rfl rfl rfl rfl

/-- Claim C5 as amended: when the ledger write has succeeded and the store
insert then fails, addProduct leaves the detectable inconsistent state - the
ledger has the product while the store does not - and surfaces the failure by
propagating the store error to the caller verbatim (the catch only logs and
rethrows); no distinct PartialCommit condition is raised, as the code defines
none. -/
theorem claim5_store_failure_propagates (chain : ChainState) (db : DbState)
    (sender : String) (now : JsDate) (msg pid ptype batch : String)
    (hpid : pid.data ≠ []) (hty : ptype.data ≠ []) (hba : batch.data ≠ [])
    (hadm : memStr chain.admins sender = true)
    (hfresh : productExistsC chain pid = false) :
    (addProductJS chain db sender now (some msg) pid ptype batch).result = .error msg ∧
    productExistsC (addProductJS chain db sender now (some msg) pid ptype batch).chain
      pid = true ∧
    (addProductJS chain db sender now (some msg) pid ptype batch).db = db := by
  rw [addProductJS_eq chain db sender now (some msg) pid ptype batch hpid hty hba,
    contractAddProduct_succeeds chain sender pid (regHash now pid ptype batch) hadm hpid
      (jsProductHash_ne_nil pid ptype batch (regMfgStr now) (regExpStr now)) hfresh]
  refine ⟨rfl, ?_, rfl⟩
  show (getProduct? (setProduct chain.products pid
    ⟨pid, regHash now pid ptype batch, []⟩) pid).isSome = true
  rw [getProduct_setProduct_self]
  rfl

/-- Witness for C5 (amended) at a concrete run. -/
theorem claim5_witness :
    (addProductJS (initialChain "0xD") [] "0xD" nowSample
      (some "connection terminated unexpectedly") "P1" "Aspirin" "B001").result =
      .error "connection terminated unexpectedly" ∧
    productExistsC (addProductJS (initialChain "0xD") [] "0xD" nowSample
      (some "connection terminated unexpectedly") "P1" "Aspirin" "B001").chain "P1" =
      true ∧
    (addProductJS (initialChain "0xD") [] "0xD" nowSample
      (some "connection terminated unexpectedly") "P1" "Aspirin" "B001").db =
      ([] : DbState) :=
  claim5_store_failure_propagates (initialChain "0xD") [] "0xD" nowSample
    "connection terminated unexpectedly" "P1" "Aspirin" "B001"
    (by decide) (by decide) (by decide) (by decide) (by decide)

/-- Claim C5 counterexample: the claim as stated is false on the code. With
the ledger write succeeded and the store insert failing with a raw driver
error, the caller receives exactly that raw store error - an undifferentiated
error, not a distinct PartialCommit condition - even though the ledger now has
P1 and the store does not. -/
theorem claim5_counterexample :
    (addProductJS (initialChain "0xD") [] "0xD" nowSample
      (some "connection terminated unexpectedly") "P1" "Aspirin" "B001").result =
      .error "connection terminated unexpectedly" ∧
    productExistsC (addProductJS (initialChain "0xD") [] "0xD" nowSample
      (some "connection terminated unexpectedly") "P1" "Aspirin" "B001").chain "P1" =
      true ∧
    dbFind (addProductJS (initialChain "0xD") [] "0xD" nowSample
      (some "connection terminated unexpectedly") "P1" "Aspirin" "B001").db "P1" = none :=
  ⟨rfl, rfl, rfl⟩

/-- Claim C6: in every run of addProduct the ledger write strictly precedes
the store insert - the attempted-action trace is always a prefix of
[ledgerWrite, storeInsert] - and when the ledger write fails, the call aborts
with that very error: no store insert is attempted and the store state is
returned unchanged. -/
theorem claim6_ledger_precedes_store (chain : ChainState) (db : DbState)
    (sender : String) (now : JsDate) (fault : Option String)
    (pid ptype batch e : String) :
    ((addProductJS chain db sender now fault pid ptype batch).actions = [] ∨
     (addProductJS chain db sender now fault pid ptype batch).actions = [.ledgerWrite] ∨
     (addProductJS chain db sender now fault pid ptype batch).actions =
       [.ledgerWrite, .storeInsert]) ∧
    (pid.data ≠ [] → ptype.data ≠ [] → batch.data ≠ [] →
      contractAddProduct chain sender pid (regHash now pid ptype batch) = .error e →
      addProductJS chain db sender now fault pid ptype batch =
        ⟨.error e, chain, db, [.ledgerWrite]⟩) := by
  constructor
  · unfold addProductJS
    split
    · simp
    · split
      · simp
      · cases contractAddProduct chain sender pid (regHash now pid ptype batch)
        · simp
        · cases fault
          · cases dbInsertRow db ⟨pid, ptype, batch, regMfgStr now, regExpStr now,
              regHash now pid ptype batch⟩
            · simp
            · simp
          · simp
  · intro hpid hty hba hc
    rw [addProductJS_eq chain db sender now fault pid ptype batch hpid hty hba, hc]

/-- Witness for C6: an unauthorized sender makes the ledger write revert; the
call returns that error with only the ledger write attempted and the store
untouched. -/
theorem claim6_witness :
    ((addProductJS (initialChain "0xD") [] "0xEve" nowSample none "P1" "Aspirin"
        "B001").actions = [] ∨
     (addProductJS (initialChain "0xD") [] "0xEve" nowSample none "P1" "Aspirin"
        "B001").actions = [.ledgerWrite] ∨
     (addProductJS (initialChain "0xD") [] "0xEve" nowSample none "P1" "Aspirin"
        "B001").actions = [.ledgerWrite, .storeInsert]) ∧
    addProductJS (initialChain "0xD") [] "0xEve" nowSample none "P1" "Aspirin" "B001" =
      ⟨.error (adminMissingMsg "0xEve"), initialChain "0xD", [], [.ledgerWrite]⟩ :=
  ⟨(claim6_ledger_precedes_store (initialChain "0xD") [] "0xEve" nowSample none
      "P1" "Aspirin" "B001" (adminMissingMsg "0xEve")).1,
   (claim6_ledger_precedes_store (initialChain "0xD") [] "0xEve" nowSample none
      "P1" "Aspirin" "B001" (adminMissingMsg "0xEve")).2
     (by decide) (by decide) (by decide) (by decide)⟩

/-- Claim C1: a register that succeeds end to end (ledger write and store
insert both complete) is verifiable: verifyProduct finds the row, re-parses
the stored ISO timestamp strings through Date and re-serializes them,
recomputes the fingerprint from the descriptive columns, and it equals the
fingerprint recorded on the ledger at registration, so isAuthentic is true
and both digests agree. -/
theorem claim1_register_then_verify (chain : ChainState) (db : DbState)
    (sender : String) (now : JsDate) (pid ptype batch : String)
    (hval : validDate now) (hyear : now.year ≤ 9997)
    (hpid : pid.data ≠ []) (hty : ptype.data ≠ []) (hba : batch.data ≠ [])
    (hadm : memStr chain.admins sender = true)
    (hfresh : productExistsC chain pid = false)
    (hdb : dbFind db pid = none) :
    (addProductJS chain db sender now none pid ptype batch).result =
      .ok (pid, regHash now pid ptype batch) ∧
    verifyProductJS (addProductJS chain db sender now none pid ptype batch).chain
        (addProductJS chain db sender now none pid ptype batch).db pid =
      .ok ⟨pid, true, regHash now pid ptype batch, regHash now pid ptype batch,
        ⟨pid, ptype, batch, regMfgStr now, regExpStr now,
          regHash now pid ptype batch⟩⟩ := by
  have hreg : addProductJS chain db sender now none pid ptype batch =
      ⟨.ok (pid, regHash now pid ptype batch),
       { chain with products := setProduct chain.products pid ⟨pid, regHash now pid ptype batch, []⟩ },
       db ++ [⟨pid, ptype, batch, regMfgStr now, regExpStr now, regHash now pid ptype batch⟩],
       [.ledgerWrite, .storeInsert]⟩ := by
    rw [addProductJS_eq chain db sender now none pid ptype batch hpid hty hba,
      contractAddProduct_succeeds chain sender pid (regHash now pid ptype batch) hadm hpid
        (jsProductHash_ne_nil pid ptype batch (regMfgStr now) (regExpStr now)) hfresh,
      dbInsertRow_ok db ⟨pid, ptype, batch, regMfgStr now, regExpStr now,
        regHash now pid ptype batch⟩ hdb]
  rw [hreg]
  refine ⟨rfl, ?_⟩
  have hfind : dbFind (db ++ [(⟨pid, ptype, batch, regMfgStr now, regExpStr now,
      regHash now pid ptype batch⟩ : DbRow)]) pid =
      some ⟨pid, ptype, batch, regMfgStr now, regExpStr now,
        regHash now pid ptype batch⟩ := by
    rw [dbFind_append_none db _ pid hdb]
    exact if_pos rfl
  rw [show (⟨.ok (pid, regHash now pid ptype batch),
      { chain with products := setProduct chain.products pid ⟨pid, regHash now pid ptype batch, []⟩ },
      db ++ [⟨pid, ptype, batch, regMfgStr now, regExpStr now, regHash now pid ptype batch⟩],
      [.ledgerWrite, .storeInsert]⟩ : RegisterOutcome).chain =
    { chain with products := setProduct chain.products pid ⟨pid, regHash now pid ptype batch, []⟩ }
    from rfl]
  rw [show (⟨.ok (pid, regHash now pid ptype batch),
      { chain with products := setProduct chain.products pid ⟨pid, regHash now pid ptype batch, []⟩ },
      db ++ [⟨pid, ptype, batch, regMfgStr now, regExpStr now, regHash now pid ptype batch⟩],
      [.ledgerWrite, .storeInsert]⟩ : RegisterOutcome).db =
    db ++ [⟨pid, ptype, batch, regMfgStr now, regExpStr now, regHash now pid ptype batch⟩]
    from rfl]
  rw [verifyProductJS_row _ _ pid _ hpid hfind]
  rw [getProductHashC_of _ pid ⟨pid, regHash now pid ptype batch, []⟩
    (getProduct_setProduct_self chain.products pid ⟨pid, regHash now pid ptype batch, []⟩)]
  have hmf : parseISO (regMfgStr now) = some now := parseISO_toISOString now hval
  have hexp : parseISO (regExpStr now) = some (setFullYearPlus2 now) :=
    parseISO_toISOString (setFullYearPlus2 now) (validDate_setFullYearPlus2 now hval hyear)
  rw [show (⟨pid, ptype, batch, regMfgStr now, regExpStr now,
      regHash now pid ptype batch⟩ : DbRow).manufacturing_date = regMfgStr now from rfl,
    show (⟨pid, ptype, batch, regMfgStr now, regExpStr now,
      regHash now pid ptype batch⟩ : DbRow).expiry_date = regExpStr now from rfl,
    hmf, hexp]
  show Except.ok (⟨pid,
      if jsProductHash pid ptype batch (toISOString now)
        (toISOString (setFullYearPlus2 now)) = regHash now pid ptype batch
      then true else false,
      jsProductHash pid ptype batch (toISOString now) (toISOString (setFullYearPlus2 now)),
      regHash now pid ptype batch,
      ⟨pid, ptype, batch, regMfgStr now, regExpStr now, regHash now pid ptype batch⟩⟩ :
        VerifyResult) =
    Except.ok ⟨pid, true, regHash now pid ptype batch, regHash now pid ptype batch,
      ⟨pid, ptype, batch, regMfgStr now, regExpStr now, regHash now pid ptype batch⟩⟩
  rw [if_pos (show jsProductHash pid ptype batch (toISOString now)
    (toISOString (setFullYearPlus2 now)) = regHash now pid ptype batch from rfl)]
  rfl

/-- Witness for C1: register P1/Aspirin/B001 at a concrete instant on a fresh
deployment with an empty table, then verify it. -/
theorem claim1_witness :
    (addProductJS (initialChain "0xD") [] "0xD" nowSample none "P1" "Aspirin"
      "B001").result = .ok ("P1", regHash nowSample "P1" "Aspirin" "B001") ∧
    verifyProductJS (addProductJS (initialChain "0xD") [] "0xD" nowSample none "P1"
        "Aspirin" "B001").chain
      (addProductJS (initialChain "0xD") [] "0xD" nowSample none "P1" "Aspirin"
        "B001").db "P1" =
      .ok ⟨"P1", true, regHash nowSample "P1" "Aspirin" "B001",
        regHash nowSample "P1" "Aspirin" "B001",
        ⟨"P1", "Aspirin", "B001", regMfgStr nowSample, regExpStr nowSample,
          regHash nowSample "P1" "Aspirin" "B001"⟩⟩ :=
  claim1_register_then_verify (initialChain "0xD") [] "0xD" nowSample "P1" "Aspirin"
    "B001" (by decide) (by decide) (by decide) (by decide) (by decide) (by decide)
    (by decide) rfl

/-- Claim C2: on a store row whose descriptive fields were changed out of band
so that the recomputed digest no longer matches the ledger digest, verify
completes without failing and returns the full result: isAuthentic false,
both digests, and the stored record. -/
theorem claim2_tamper_detected (chain : ChainState) (db : DbState) (pid : String)
    (row : DbRow) (ledgerHash : String) (dm de : JsDate)
    (hpid : pid.data ≠ [])
    (hrow : dbFind db pid = some row)
    (hchain : getProductHashC chain pid = .ok ledgerHash)
    (hdm : parseISO row.manufacturing_date = some dm)
    (hde : parseISO row.expiry_date = some de)
    (hdiff : jsProductHash row.product_id row.product_type row.batch_number
      (toISOString dm) (toISOString de) ≠ ledgerHash) :
    verifyProductJS chain db pid =
      .ok ⟨pid, false,
        jsProductHash row.product_id row.product_type row.batch_number
          (toISOString dm) (toISOString de),
        ledgerHash, row⟩ := by
  rw [verifyProductJS_row chain db pid row hpid hrow, hchain, hdm, hde]
  show Except.ok (⟨pid,
      if jsProductHash row.product_id row.product_type row.batch_number (toISOString dm)
        (toISOString de) = ledgerHash then true else false,
      jsProductHash row.product_id row.product_type row.batch_number (toISOString dm)
        (toISOString de),
      ledgerHash, row⟩ : VerifyResult) =
    Except.ok ⟨pid, false, jsProductHash row.product_id row.product_type row.batch_number
      (toISOString dm) (toISOString de), ledgerHash, row⟩
  rw [if_neg hdiff]

set_option maxRecDepth 200000 in
set_option maxHeartbeats 4000000 in
/-- Witness for C2: after registering P1 as Aspirin, mutating the row to
Ibuprofen makes verify return isAuthentic false with the two differing
digests and the tampered record, without failing. -/
theorem claim2_witness :
    verifyProductJS chainSample [tamperedRow] "P1" =
      .ok ⟨"P1", false,
        jsProductHash "P1" "Ibuprofen" "B001" (toISOString nowSample)
          (toISOString (setFullYearPlus2 nowSample)),
        regHash nowSample "P1" "Aspirin" "B001", tamperedRow⟩ :=
  claim2_tamper_detected chainSample [tamperedRow] "P1" tamperedRow
    (regHash nowSample "P1" "Aspirin" "B001") nowSample (setFullYearPlus2 nowSample)
    (by decide) rfl rfl
    (parseISO_toISOString nowSample (by decide))
    (parseISO_toISOString (setFullYearPlus2 nowSample)
      (validDate_setFullYearPlus2 nowSample (by decide) (by decide)))
    (by decide)

set_option maxRecDepth 200000 in
set_option maxHeartbeats 4000000 in
/-- Claim C3: the fingerprint is pure and deterministic - as a function, equal
5-tuples give equal digests - and the type-tagged ABI encoding avoids
field-boundary ambiguity: at the specified pair, adjacent fields ab/c versus
a/bc whose naive concatenations coincide, the keccak256 digests differ. -/
theorem claim3_fingerprint_deterministic_boundary :
    (∀ a b c d e : String, jsProductHash a b c d e = jsProductHash a b c d e) ∧
    ("ab" ++ "c" : String) = "a" ++ "bc" ∧
    jsProductHash "ab" "c" "B001" (toISOString nowSample)
        (toISOString (setFullYearPlus2 nowSample)) ≠
      jsProductHash "a" "bc" "B001" (toISOString nowSample)
        (toISOString (setFullYearPlus2 nowSample)) :=
  ⟨fun a b c d e => rfl, rfl, by decide⟩

set_option maxRecDepth 200000 in
set_option maxHeartbeats 4000000 in
/-- Claim C4 (the failing input): registering P1 twice. The second call does
not fail at the pre-flight existence check - the AlreadyExists error thrown
there contains the word Product, so the catch around the check swallows it -
and instead proceeds to attempt the ledger write, which reverts with the
contract message "Product already exists". The call still fails and exactly
one ledger entry and one store row for P1 remain, but the ledger write of
step 5 was attempted, contrary to the claim. -/
theorem claim4_duplicate_register_reaches_ledger :
    exceptIsOk firstRegister.result = true ∧
    secondRegister.result = .error "Product already exists" ∧
    secondRegister.result ≠ .error (existsMsg "P1") ∧
    secondRegister.actions = [.ledgerWrite] ∧
    secondRegister.chain = firstRegister.chain ∧
    secondRegister.db = firstRegister.db ∧
    firstRegister.chain.products.length = 1 ∧
    firstRegister.db.length = 1 := by
  refine ⟨rfl, rfl, ?_, rfl, rfl, rfl, rfl, rfl⟩
  decide

end BCD
